import Mathlib

/-!
Shallow embedding of the `oas-dsl` schema-builder library (the most complete
version of the source, the one with `FixedSchema`, `ReferenceSchema`,
`OneOfSchema`/`AnyOfSchema` and route sorting).

JavaScript objects are modelled as ordered association lists with unique keys
(`List (String × Json)`); a value of `undefined` is modelled with `Option`.
The process-wide mutable registries (`FixedSchema.registeredFixedSchemas`,
`ReferenceSchema.externalFiles`) are passed as explicit parameters.  The
external `$RefParser` normalization, `prettier` formatting and all file I/O
are external collaborators and are outside the embedded core.
-/

/-- JSON values.  `obj` keeps the key insertion order of the JavaScript
object it models. -/
inductive Json where
  | null : Json
  | str : String → Json
  | num : Int → Json
  | bool : Bool → Json
  | arr : List Json → Json
  | obj : List (String × Json) → Json

/-- JavaScript property write `o[k] = v`: overwrite in place if the key is
present (JS objects keep the original key position), append otherwise.
The association lists this is used on always have unique keys, as JS
objects do. -/
def setKeyP {α : Type} : List (String × α) → String → α → List (String × α)
  | [], k, v => [(k, v)]
  | p :: rest, k, v => if p.1 == k then (k, v) :: rest else p :: setKeyP rest k v

/-- JavaScript property read `o[k]`, `none` when the key is absent. -/
def getKeyP {α : Type} : List (String × α) → String → Option α
  | [], _ => none
  | p :: rest, k => if p.1 == k then some p.2 else getKeyP rest k

/-- Build a JS object literal from a list of `(key, value)` writes, later
writes to the same key overwriting earlier ones in place (spread semantics). -/
def mkObj (entries : List (String × Option Json)) : List (String × Option Json) :=
  entries.foldl (fun acc p => setKeyP acc p.1 p.2) []

/-- `ignoreUndefined` from the source: drop every key whose value is
`undefined` (and only those; `null` values are kept). -/
def ignoreUndefined : List (String × Option Json) → List (String × Json)
  | [] => []
  | (_, none) :: rest => ignoreUndefined rest
  | (k, some v) :: rest => (k, v) :: ignoreUndefined rest

/-- JS property read of a possibly-`undefined`-valued object:
absent keys and keys stored as `undefined` both read as `undefined`. -/
def getKeyOpt (l : List (String × Option Json)) (k : String) : Option Json :=
  (getKeyP l k).bind id

/-- `toSchemaName`: replace every character outside `[A-Za-z0-9\-._]`
with `_`. -/
def toSchemaName (label : String) : String :=
  String.mk (label.data.map (fun c =>
    if c.isAlphanum || c == '-' || c == '.' || c == '_' then c else '_'))

/-- One named example: `{description?, value}`. -/
structure ExampleObject where
  description : Option String := none
  value : Json

/-- `Examples = Record<string, {description?, value}>`. -/
abbrev Examples := List (String × ExampleObject)

/-- The attributes declared on the abstract base classes `Schema` and
`ExtensibleSchema` (`_description`, `_required`, `_deprecated`, `_explode`,
`_examples`, `_example`). `none` models `undefined`. -/
structure Base where
  description : Option String := none
  required : Option Bool := none
  deprecated : Option Bool := none
  explode : Option Bool := none
  examples : Option Examples := none
  «example» : Option Json := none

/-- `Options.type`: the representation of the produced schema. -/
inductive Options where
  | flat : Options
  | referenced : Options
deriving DecidableEq

mutual
/-- The variants of `ExtensibleSchema`: `StringField`, `BooleanField`,
`DateField`, `NumberField`, `EnumField`, `ObjectField`, `ArrayField`,
each with its own declared attributes. -/
inductive ExtensibleSchema where
  | string : (minLength maxLength : Option Int) → (pattern : Option String) → ExtensibleSchema
  | boolean : ExtensibleSchema
  | date : (format : Option String) → ExtensibleSchema
  | number : (min max dflt : Option Int) → ExtensibleSchema
  | enum : (values : List String) → ExtensibleSchema
  | object : (fields : List (String × Schema)) → (additionalProperties : Option Bool) → ExtensibleSchema
  | array : (items : Option Schema) → ExtensibleSchema

/-- The `Schema` class hierarchy: a concrete node is either one of the
`ExtensibleSchema` subclasses, a `FixedSchema` (labelled wrapper), a
`ReferenceSchema` (external `$ref`), a `OneOfSchema` or an `AnyOfSchema`.
Every node carries the base-class attributes. -/
inductive Schema where
  | extensible : Base → ExtensibleSchema → Schema
  | fixed : Base → (label : String) → Schema → Schema
  | reference : Base → (file : String) → (path : String) → Schema
  | oneOf : Base → List Schema → Schema
  | anyOf : Base → List Schema → Schema
end

/-- The base-class attribute record of any node. -/
def Schema.base : Schema → Base
  | .extensible b _ => b
  | .fixed b _ _ => b
  | .reference b _ _ => b
  | .oneOf b _ => b
  | .anyOf b _ => b

/-- Replace the base-class attribute record (the `clone`-then-assign
pattern of the modifiers). -/
def Schema.withBase : Schema → Base → Schema
  | .extensible _ e, b => .extensible b e
  | .fixed _ l s, b => .fixed b l s
  | .reference _ f p, b => .reference b f p
  | .oneOf _ ss, b => .oneOf b ss
  | .anyOf _ ss, b => .anyOf b ss

/-- `Schema.required()`: copy with `_required = true`. -/
def Schema.required (s : Schema) : Schema :=
  s.withBase { s.base with required := some true }

/-- `Schema.deprecated()`: copy with `_deprecated = true`. -/
def Schema.deprecated (s : Schema) : Schema :=
  s.withBase { s.base with deprecated := some true }

/-- `Schema.examples(e)`: copy with `_examples = e`. -/
def Schema.examples (s : Schema) (e : Examples) : Schema :=
  s.withBase { s.base with examples := some e }

/-- `ExtensibleSchema.description(d)`: copy with `_description = d`. -/
def Schema.description (s : Schema) (d : String) : Schema :=
  s.withBase { s.base with description := some d }

/-- `ExtensibleSchema.example(d)`: copy with `_example = d` (any value,
`null` included). -/
def Schema.«example» (s : Schema) (d : Json) : Schema :=
  s.withBase { s.base with «example» := some d }

/-- `ExtensibleSchema.label(d)`: wrap in a `FixedSchema`.  The constructor
normalizes the label and copies `_required`, `_deprecated` and `_explode`
from the wrapped schema (the other base attributes start out unset). -/
def Schema.label (s : Schema) (d : String) : Schema :=
  .fixed { required := s.base.required, deprecated := s.base.deprecated,
           explode := s.base.explode } (toSchemaName d) s

/-- `StringField.min(d)`: set `_minLength`. -/
def StringField.min (s : Schema) (d : Int) : Schema :=
  match s with
  | .extensible b (.string _ ma p) => .extensible b (.string (some d) ma p)
  | s => s

/-- `StringField.max(d)`: set `_maxLength`. -/
def StringField.max (s : Schema) (d : Int) : Schema :=
  match s with
  | .extensible b (.string mi _ p) => .extensible b (.string mi (some d) p)
  | s => s

/-- `StringField.pattern(d)`: set `_regex` (kept as its source text). -/
def StringField.pattern (s : Schema) (d : String) : Schema :=
  match s with
  | .extensible b (.string mi ma _) => .extensible b (.string mi ma (some d))
  | s => s

/-- `NumberField.min(d)`: set `_min`. -/
def NumberField.min (s : Schema) (d : Int) : Schema :=
  match s with
  | .extensible b (.number _ ma df) => .extensible b (.number (some d) ma df)
  | s => s

/-- `NumberField.max(d)`: set `_max`. -/
def NumberField.max (s : Schema) (d : Int) : Schema :=
  match s with
  | .extensible b (.number mi _ df) => .extensible b (.number mi (some d) df)
  | s => s

/-- `NumberField.default(d)`: set `_default`. -/
def NumberField.default (s : Schema) (d : Int) : Schema :=
  match s with
  | .extensible b (.number mi ma _) => .extensible b (.number mi ma (some d))
  | s => s

/-- `DateField.iso()`: set `_format = "date-time"`. -/
def DateField.iso (s : Schema) : Schema :=
  match s with
  | .extensible b (.date _) => .extensible b (.date (some "date-time"))
  | s => s

/-- `ObjectField.additionalProperties(d)`: set `_additionalProperties`. -/
def ObjectField.additionalProperties (s : Schema) (d : Bool) : Schema :=
  match s with
  | .extensible b (.object fields _) => .extensible b (.object fields (some d))
  | s => s

/-- `ArrayField.items(d)`: set `_items`. -/
def ArrayField.items (s : Schema) (d : Schema) : Schema :=
  match s with
  | .extensible b (.array _) => .extensible b (.array (some d))
  | s => s

/-- `ExtensibleSchema.baseFields()`: the `{description, example, deprecated}`
object spread into every extensible fragment. -/
def baseFields (b : Base) : List (String × Option Json) :=
  [("description", b.description.map .str),
   ("example", b.«example»),
   ("deprecated", b.deprecated.map .bool)]

mutual
/-- `Schema.toJSonSchema(options)`, dispatched over the class hierarchy.
`externalFiles` is the process-wide `ReferenceSchema.externalFiles` map,
with `""` standing for a registered-but-unresolved (or unknown) file.
A thrown error is an `Except.error` carrying the message. -/
def Schema.toJSonSchema (externalFiles : String → String) (options : Options) :
    Schema → Except String Json
  | .extensible b e => do
      let own ← ownFields externalFiles options b e
      let typeVal := getKeyOpt own "type"
      let formatVal := getKeyOpt own "format"
      let rest := own.filter (fun p => p.1 != "type" && p.1 != "format")
      .ok (.obj (ignoreUndefined (mkObj
        ([("type", typeVal), ("format", formatVal)] ++ baseFields b ++ rest))))
  | .fixed _ label schema =>
      if options == .flat then
        schema.toJSonSchema externalFiles options
      else
        .ok (.obj [("$ref", .str ("#/components/schemas/" ++ label))])
  | .reference _ file path =>
      let sourceFilename := file
      let targetFilename := externalFiles sourceFilename
      if targetFilename != "" then
        .ok (.obj [("$ref", .str (targetFilename ++ "#" ++ path))])
      else
        .error ("External file not found: " ++ sourceFilename)
  | .oneOf _ schemas => do
      let js ← toJSonSchemaList externalFiles options schemas
      .ok (.obj [("oneOf", .arr js)])
  | .anyOf _ schemas => do
      let js ← toJSonSchemaList externalFiles options schemas
      .ok (.obj [("anyOf", .arr js)])

/-- The per-subclass `ownFields(options)` methods of `ExtensibleSchema`
(the base attributes `b` are those of the receiver; `ObjectField` reads
`this._description` in its own fields). -/
def ownFields (externalFiles : String → String) (options : Options) (b : Base) :
    ExtensibleSchema → Except String (List (String × Option Json))
  | .string minLength maxLength pattern =>
      .ok [("type", some (.str "string")),
           ("minLength", minLength.map .num),
           ("maxLength", maxLength.map .num),
           ("pattern", pattern.map .str)]
  | .boolean => .ok [("type", some (.str "boolean"))]
  | .date format =>
      .ok [("type", some (.str "string")),
           ("format", format.map .str)]
  | .number mi ma df =>
      .ok [("type", some (.str "number")),
           ("minimum", mi.map .num),
           ("maximum", ma.map .num),
           ("default", df.map .num)]
  | .enum values =>
      .ok [("type", some (.str "string")),
           ("enum", some (.arr (values.map .str)))]
  | .object fields additionalProperties => do
      let props ← toJSonSchemaFields externalFiles options fields
      let requiredFields := (fields.filter (fun f => f.2.base.required == some true)).map (·.1)
      .ok [("type", some (.str "object")),
           ("description", b.description.map .str),
           ("properties", if fields.length == 0 then none else some (.obj props)),
           ("additionaProperties", additionalProperties.map .bool),
           ("required", if requiredFields.length != 0
                        then some (.arr (requiredFields.map .str)) else none)]
  | .array none => .ok [("type", some (.str "array")), ("items", none)]
  | .array (some s) => do
      let j ← s.toJSonSchema externalFiles options
      .ok [("type", some (.str "array")), ("items", some j)]

/-- The `fieldNames.reduce` building `properties`: serialize every field of
an `ObjectField` in order (an exception from any field propagates). -/
def toJSonSchemaFields (externalFiles : String → String) (options : Options) :
    List (String × Schema) → Except String (List (String × Json))
  | [] => .ok []
  | (k, s) :: rest => do
      let j ← s.toJSonSchema externalFiles options
      let r ← toJSonSchemaFields externalFiles options rest
      .ok ((k, j) :: r)

/-- `this._schemas.map((s) => s.toJSonSchema(options))` for
`OneOfSchema`/`AnyOfSchema`. -/
def toJSonSchemaList (externalFiles : String → String) (options : Options) :
    List Schema → Except String (List Json)
  | [] => .ok []
  | s :: rest => do
      let j ← s.toJSonSchema externalFiles options
      let r ← toJSonSchemaList externalFiles options rest
      .ok (j :: r)
end

/-- The builder entry points of the `oas` record. -/
def oas.string : Schema := .extensible {} (.string none none none)

/-- `oas.boolean()`. -/
def oas.boolean : Schema := .extensible {} .boolean

/-- `oas.date()`. -/
def oas.date : Schema := .extensible {} (.date none)

/-- `oas.number()`. -/
def oas.number : Schema := .extensible {} (.number none none none)

/-- `oas.allow(...values)`. -/
def oas.allow (values : List String) : Schema := .extensible {} (.enum values)

/-- `oas.object(fields)`. -/
def oas.object (fields : List (String × Schema)) : Schema :=
  .extensible {} (.object fields none)

/-- `oas.array()`; the `ArrayField` constructor sets `_explode = true`. -/
def oas.array : Schema := .extensible { explode := some true } (.array none)

/-- `oas.ref({file, path})`. -/
def oas.ref (file : String) (path : String) : Schema := .reference {} file path

/-- `oas.oneOf(...schemas)`. -/
def oas.oneOf (schemas : List Schema) : Schema := .oneOf {} schemas

/-- `oas.anyOf(...schemas)`. -/
def oas.anyOf (schemas : List Schema) : Schema := .anyOf {} schemas

/-- One OpenAPI parameter descriptor as produced by
`ObjectField.asParameterList` (field values may be `undefined`;
`JSON.stringify` later drops those keys). -/
structure Param where
  description : Option Json
  name : String
  inLoc : String
  explode : Option Bool
  required : Option Bool
  schema : Json

/-- The key-value list of an object fragment (every `toJSonSchema` result
of the embedded classes is a JSON object). -/
def Json.objFieldsOf : Json → List (String × Json)
  | .obj l => l
  | _ => []

/-- `ObjectField.asParameterList(parameterType, options)`: one descriptor
per field, in field order.  A `FixedSchema` field is unwrapped to its
referenced schema before serialization; `description`, `example` and
`required` are destructured out of the fragment, the rest is the
parameter's `schema`. -/
def ObjectField.asParameterList (s : Schema) (parameterType : String)
    (externalFiles : String → String) (options : Options) :
    Except String (List Param) :=
  match s with
  | .extensible _ (.object fields _) => go fields
  | _ => .ok []
where
  go : List (String × Schema) → Except String (List Param)
    | [] => .ok []
    | (key, field) :: rest => do
        let fieldSchema := match field with
          | .fixed _ _ inner => inner
          | f => f
        let frag ← fieldSchema.toJSonSchema externalFiles options
        let fragFields := frag.objFieldsOf
        let description := getKeyP fragFields "description"
        let schema := fragFields.filter
          (fun p => p.1 != "description" && p.1 != "example" && p.1 != "required")
        let r ← go rest
        .ok ({ description := description,
               name := key,
               inLoc := parameterType,
               explode := field.base.explode,
               required := if parameterType == "path" then some true
                           else field.base.required,
               schema := .obj schema } :: r)

/-- `ObjectField.asResponseHeaders(options)`: header name mapped to
`{schema: {type}, description}` (all other facets dropped). -/
def ObjectField.asResponseHeaders (s : Schema)
    (externalFiles : String → String) (options : Options) :
    Except String (List (String × Json)) :=
  match s with
  | .extensible _ (.object fields _) => go fields []
  | _ => .ok []
where
  go : List (String × Schema) → List (String × Json) → Except String (List (String × Json))
    | [], acc => .ok acc
    | (key, field) :: rest, acc => do
        let frag ← field.toJSonSchema externalFiles options
        let fragFields := frag.objFieldsOf
        go rest (setKeyP acc key (.obj (ignoreUndefined
          [("schema", some (.obj (ignoreUndefined [("type", getKeyP fragFields "type")]))),
           ("description", getKeyP fragFields "description")])))

/-- `JSON.stringify` of a parameter descriptor: keys with `undefined`
values are dropped, the others appear in declaration order. -/
def Param.toJson (p : Param) : Json :=
  .obj (ignoreUndefined
    [("description", p.description),
     ("name", some (.str p.name)),
     ("in", some (.str p.inLoc)),
     ("explode", p.explode.map .bool),
     ("required", p.required.map .bool),
     ("schema", some p.schema)])

/-- `SecurityRequirement = {name, scopes}`. -/
structure SecurityRequirement where
  name : String
  scopes : List String

/-- The `validate` block of a defined route. -/
structure ValidateSpec where
  path : Option Schema := none
  query : Option Schema := none
  body : Option Schema := none
  headers : Option Schema := none

/-- `RouteResponse`: status code, description, optional schema, optional
headers object, optional named examples. -/
structure RouteResponse where
  statusCode : Int
  description : String
  schema : Option Schema := none
  headers : Option Schema := none
  examples : Option Examples := none

/-- A `DefinedRoute`. -/
structure DefinedRoute where
  operationId : String
  description : String
  notes : Option String := none
  deprecated : Option Bool := none
  method : String
  path : String
  tags : Option (List String) := none
  validate : Option ValidateSpec := none
  successResponse : RouteResponse
  errorResponses : Option (List RouteResponse) := none
  produces : Option String := none
  security : Option (List SecurityRequirement) := none
  order : Option Int := none

/-- A `ReferencedRoute` (its `ref.file` is kept as a string, as
`route.ref.file.toString()` produces). -/
structure ReferencedRoute where
  method : String
  path : String
  order : Option Int := none
  refFile : String
  refPath : String
  deprecated : Option Bool := none

/-- `Route = DefinedRoute | ReferencedRoute`. -/
inductive Route where
  | defined : DefinedRoute → Route
  | referenced : ReferencedRoute → Route

/-- The `order` field of either route variant. -/
def Route.order : Route → Option Int
  | .defined r => r.order
  | .referenced r => r.order

/-- The `path` field of either route variant. -/
def Route.path : Route → String
  | .defined r => r.path
  | .referenced r => r.path

/-- The `method` field of either route variant. -/
def Route.method : Route → String
  | .defined r => r.method
  | .referenced r => r.method

/-- `/\/([^\/]+)/.exec(route.path)?.[1]`: the first maximal run of
non-`/` characters that follows a `/`. -/
def pathAsTag (p : String) : Option String := go p.data
where
  go : List Char → Option String
    | [] => none
    | c :: rest =>
        if c == '/' then
          match rest.takeWhile (fun d => d != '/') with
          | [] => go rest
          | seg => some (String.mk seg)
        else go rest

/-- Serialize an `Examples` record (its `description` keys are dropped by
`JSON.stringify` when `undefined`). -/
def examplesToJson (exs : Examples) : Json :=
  .obj (exs.map (fun e => (e.1, .obj (ignoreUndefined
    [("description", e.2.description.map .str), ("value", some e.2.value)]))))

/-- `securityToJsonSchema`: one object mapping every requirement name to
its scope list, wrapped in a one-element array. -/
def securityToJsonSchema (reqs : List SecurityRequirement) : Json :=
  .arr [.obj (reqs.foldl (fun acc s => setKeyP acc s.name (.arr (s.scopes.map .str))) [])]

/-- `toResponseSchema(response, options)`. -/
def toResponseSchema (externalFiles : String → String) (options : Options)
    (response : RouteResponse) : Except String Json :=
  match response.schema with
  | some schema => do
      let sj ← schema.toJSonSchema externalFiles options
      let headersJ ← match response.headers with
        | some h => do
            let hs ← ObjectField.asResponseHeaders h externalFiles options
            pure (some (Json.obj hs))
        | none => pure none
      .ok (.obj (ignoreUndefined
        [("description", some (.str response.description)),
         ("headers", headersJ),
         ("content", some (.obj [("application/json", .obj (ignoreUndefined
            [("schema", some sj),
             ("examples", response.examples.map examplesToJson)]))]))]))
  | none => .ok (.obj [("description", .str response.description)])

/-- The `responses` object: the success response first, then every error
response in array order (computed keys are the status codes as strings). -/
def buildResponses (externalFiles : String → String) (options : Options)
    (route : DefinedRoute) : Except String Json := do
  let succ ← toResponseSchema externalFiles options route.successResponse
  go (route.errorResponses.getD []) [(toString route.successResponse.statusCode, succ)]
where
  go : List RouteResponse → List (String × Json) → Except String Json
    | [], acc => .ok (.obj acc)
    | r :: rest, acc => do
        let j ← toResponseSchema externalFiles options r
        go rest (setKeyP acc (toString r.statusCode) j)

/-- `route.validate?.<loc>?.asParameterList(loc, options) || []`: an absent
validation object contributes no parameters. -/
def asParameterListOpt (v : Option Schema) (parameterType : String)
    (externalFiles : String → String) (options : Options) :
    Except String (List Param) :=
  match v with
  | some h => ObjectField.asParameterList h parameterType externalFiles options
  | none => pure []

/-- `route.validate?.body && {content: {"application/json": {schema, examples}}}`:
the request body fragment, present only when a body validation schema is. -/
def requestBodyOf (v : Option Schema) (externalFiles : String → String)
    (options : Options) : Except String (Option Json) :=
  match v with
  | some body => do
      let bj ← body.toJSonSchema externalFiles options
      pure (some (Json.obj [("content", .obj [("application/json", .obj (ignoreUndefined
        [("schema", some bj),
         ("examples", body.base.examples.map examplesToJson)]))])]))
  | none => pure none

/-- `routeToJsonSchema(route, options)`. -/
def routeToJsonSchema (externalFiles : String → String) (options : Options) :
    Route → Except String Json
  | .defined route => do
      let headerParams ← asParameterListOpt (route.validate.bind (·.headers)) "header"
        externalFiles options
      let pathParams ← asParameterListOpt (route.validate.bind (·.path)) "path"
        externalFiles options
      let queryParams ← asParameterListOpt (route.validate.bind (·.query)) "query"
        externalFiles options
      let parameters := headerParams ++ pathParams ++ queryParams
      let requestBody ← requestBodyOf (route.validate.bind (·.body)) externalFiles options
      let responses ← buildResponses externalFiles options route
      .ok (.obj (ignoreUndefined
        [("summary", some (.str route.description)),
         ("operationId", some (.str route.operationId)),
         ("description", route.notes.map .str),
         ("deprecated", route.deprecated.map .bool),
         ("parameters", if parameters.length != 0
                        then some (.arr (parameters.map Param.toJson)) else none),
         ("requestBody", requestBody),
         ("tags", match route.tags with
                  | some ts => some (.arr (ts.map .str))
                  | none => (pathAsTag route.path).map (fun t => .arr [.str t])),
         ("security", route.security.map securityToJsonSchema),
         ("responses", some responses),
         ("x-order", route.order.map .num)]))
  | .referenced route =>
      .ok (.obj (ignoreUndefined
        [("$ref", some (.str (route.refFile ++ "#" ++ route.refPath))),
         ("deprecated", route.deprecated.map .bool)]))

/-- `a.order == undefined ? 10000 : a.order`, the sort key of a route. -/
def orderKey (o : Option Int) : Int :=
  match o with
  | none => 10000
  | some n => n

/-- `sortedRoutes`: JavaScript `Array.prototype.sort` with the comparator
`(a, b) => orderKey(a) - orderKey(b)` is exactly the sorted stable
permutation, which insertion sort computes. -/
def sortRoutes (routes : List Route) : List Route :=
  List.insertionSort (fun a b => orderKey a.order ≤ orderKey b.order) routes

/-- JavaScript `String.prototype.toLowerCase` (the methods here are ASCII
HTTP verbs). -/
def toLowerCase (s : String) : String :=
  String.mk (s.data.map Char.toLower)

/-- The `sortedRoutes.reduce` building the path-item map: insert each
route's fragment at `paths[route.path][route.method.toLowerCase()]`. -/
def buildPaths (externalFiles : String → String) (options : Options)
    (routes : List Route) : Except String (List (String × List (String × Json))) :=
  go routes []
where
  go : List Route → List (String × List (String × Json)) →
      Except String (List (String × List (String × Json)))
    | [], acc => .ok acc
    | route :: rest, acc => do
        let j ← routeToJsonSchema externalFiles options route
        let pathItem := (getKeyP acc route.path).getD []
        go rest (setKeyP acc route.path (setKeyP pathItem (toLowerCase route.method) j))

/-- The `schemaCount` reduction of `getDuplicateFixedSchemas`: how many
times each label was registered, keyed in first-registration order. -/
def countLabels (registered : List String) : List (String × Nat) :=
  registered.foldl (fun acc s => setKeyP acc s ((getKeyP acc s).getD 0 + 1)) []

/-- `FixedSchema.getDuplicateFixedSchemas()` over the process-wide registry
(passed explicitly): the labels registered more than once. -/
def getDuplicateFixedSchemas (registered : List String) : List String :=
  let schemaCount := countLabels registered
  (schemaCount.map (·.1)).filter (fun s => (getKeyP schemaCount s).getD 0 > 1)

mutual
/-- `collectRefSchemasForSchema` on a present schema: every `FixedSchema`
reachable through fixed wrappers, object fields and array items. -/
def collectRefSchemasForSchema : Schema → List Schema
  | .fixed b lab inner => .fixed b lab inner :: collectRefSchemasForSchema inner
  | .extensible _ (.object fields _) => collectRefSchemasForFields fields
  | .extensible _ (.array (some items)) => collectRefSchemasForSchema items
  | _ => []

/-- `Object.values(schema._fields).flatMap(collectRefSchemasForSchema)`. -/
def collectRefSchemasForFields : List (String × Schema) → List Schema
  | [] => []
  | (_, s) :: rest => collectRefSchemasForSchema s ++ collectRefSchemasForFields rest
end

/-- `collectRefSchemasForSchema` on a `Schema | undefined` argument. -/
def collectRefSchemasForSchemaOpt : Option Schema → List Schema
  | none => []
  | some s => collectRefSchemasForSchema s

/-- `collectRefSchemasForRoute` (the source discriminates the route kinds
with `"validate" in route`). -/
def collectRefSchemasForRoute : Route → List Schema
  | .defined route =>
      if route.validate.isSome then
        ([route.validate.bind (·.path), route.validate.bind (·.headers),
          route.validate.bind (·.query), route.validate.bind (·.body),
          route.successResponse.schema]
          ++ (route.errorResponses.getD []).map (·.schema)).foldr
          (fun s acc => collectRefSchemasForSchemaOpt s ++ acc) []
      else []
  | .referenced _ => []

/-- `FixedSchema.toComponent(options)`: the single-entry map from the
normalized label to the wrapped schema's fragment. -/
def FixedSchema.toComponent (externalFiles : String → String) (options : Options) :
    Schema → Except String (List (String × Json))
  | .fixed _ label schema => do
      let j ← schema.toJSonSchema externalFiles options
      .ok [(toSchemaName label, j)]
  | _ => .ok []

/-- `toSchemaObject(schemas, options)`: merge the component entries, later
entries with the same key silently overwriting earlier ones. -/
def toSchemaObject (externalFiles : String → String) (options : Options)
    (schemas : List Schema) : Except String (List (String × Json)) :=
  go schemas []
where
  go : List Schema → List (String × Json) → Except String (List (String × Json))
    | [], acc => .ok acc
    | s :: rest, acc => do
        let c ← FixedSchema.toComponent externalFiles options s
        go rest (c.foldl (fun a p => setKeyP a p.1 p.2) acc)

/-- The in-memory parameter object of `makeSchema` (the output sink and
the JSON-path transformations act after normalization, outside the
embedded core). -/
structure MakeSchemaParams where
  openapiVersion : String
  info : Json
  servers : Json
  tags : List String
  routes : List Route
  security : Option (List SecurityRequirement) := none
  securitySchemes : Option Json := none

/-- `makeSchema(params, options)` up to the document that is handed to the
external `$RefParser` normalization: the duplicate-label check (referenced
mode only), the stable sort by `order`, the path-item map, and the
assembled top-level document.  `registeredFixedSchemas` is the
process-wide label registry and `externalFiles` the resolver's file map. -/
def makeSchema (registeredFixedSchemas : List String)
    (externalFiles : String → String)
    (params : MakeSchemaParams) (options : Options) : Except String Json := do
  if options == .referenced then
    let duplicates := getDuplicateFixedSchemas registeredFixedSchemas
    if duplicates.length != 0 then
      throw ("Found duplicate fixed schemas: " ++ String.intercalate "," duplicates)
  let sortedRoutes := sortRoutes params.routes
  let paths ← buildPaths externalFiles options sortedRoutes
  let schemas ← if options == .referenced then
      toSchemaObject externalFiles options
        ((params.routes.map collectRefSchemasForRoute).flatten)
    else pure []
  .ok (.obj (ignoreUndefined
    [("openapi", some (.str params.openapiVersion)),
     ("security", params.security.map securityToJsonSchema),
     ("info", some params.info),
     ("tags", some (.arr (params.tags.map .str))),
     ("paths", some (.obj (paths.map (fun p => (p.1, Json.obj p.2))))),
     ("servers", some params.servers),
     ("components", some (.obj (ignoreUndefined
        [("securitySchemes", params.securitySchemes),
         ("schemas", some (.obj schemas))])))]))

/-! ### Concrete values used by the theorems below -/

/-- A resolver map with no file resolved (every lookup is `""`, the value a
freshly registered external file starts with). -/
def extNone : String → String := fun _ => ""

/-- A resolver map in which `widgets.json` has been dereferenced into a
scratch-directory copy. -/
def extWidgets : String → String :=
  fun f => if f == "widgets.json" then "/tmp/oas-dsl/spec-0-widgets.json" else ""

/-- A referenced route with `order` 0. -/
def routeOrder0 : Route :=
  .referenced { method := "GET", path := "/a", order := some 0,
                refFile := "f.json", refPath := "/p" }

/-- A referenced route with `order` 1. -/
def routeOrder1 : Route :=
  .referenced { method := "GET", path := "/b", order := some 1,
                refFile := "f.json", refPath := "/p" }

/-- A referenced route with no `order`. -/
def routeOrderNone : Route :=
  .referenced { method := "GET", path := "/c",
                refFile := "f.json", refPath := "/p" }

/-- A minimal `makeSchema` parameter object with no routes. -/
def minimalParams : MakeSchemaParams :=
  { openapiVersion := "3.0.0", info := .obj [], servers := .arr [],
    tags := [], routes := [] }

/-- `GET /widgets/{id}` with one required path parameter and a `200`
object response. -/
def widgetsRoute : DefinedRoute :=
  { operationId := "getWidget", description := "Get a widget",
    method := "GET", path := "/widgets/{id}",
    validate := some { path := some (oas.object [("id", oas.string.required)]) },
    successResponse := { statusCode := 200, description := "ok",
                         schema := some (oas.object [("name", oas.string)]) } }

/-- The parameter descriptor list of `widgetsRoute`'s path object. -/
def widgetsPathParams : List Param :=
  [{ description := none, name := "id", inLoc := "path", explode := none,
     required := some true, schema := .obj [("type", .str "string")] }]

/-- The operation fragment `routeToJsonSchema` produces for `widgetsRoute`. -/
def widgetsFragment : Json :=
  .obj [("summary", .str "Get a widget"),
        ("operationId", .str "getWidget"),
        ("parameters", .arr [.obj [("name", .str "id"), ("in", .str "path"),
                                   ("required", .bool true),
                                   ("schema", .obj [("type", .str "string")])]]),
        ("tags", .arr [.str "widgets"]),
        ("responses", .obj [("200", .obj [("description", .str "ok"),
          ("content", .obj [("application/json", .obj [("schema",
            .obj [("type", .str "object"),
                  ("properties", .obj [("name", .obj [("type", .str "string")])])])])])])])]

/-! ### Lemmas about the JavaScript-object model -/

/-- Reading back through a property write. -/
theorem getKeyP_setKeyP {α : Type} (l : List (String × α)) (k j : String) (v : α) :
    getKeyP (setKeyP l k v) j = if j = k then some v else getKeyP l j := by
  induction l with
  | nil =>
      by_cases h : j = k
      · simp [setKeyP, getKeyP, beq_iff_eq, h]
      · simp [setKeyP, getKeyP, beq_iff_eq, h, Ne.symm h]
  | cons p rest ih =>
      by_cases hpk : p.1 = k
      · by_cases h : j = k
        · simp [setKeyP, getKeyP, beq_iff_eq, hpk, h]
        · simp [setKeyP, getKeyP, beq_iff_eq, hpk, h, Ne.symm h]
      · by_cases h : j = p.1
        · simp [setKeyP, getKeyP, beq_iff_eq, hpk, h,
                show ¬ j = k from fun hc => hpk (h ▸ hc)]
        · simp [setKeyP, getKeyP, beq_iff_eq, hpk, Ne.symm h, ih]

/-- An absent key reads as `undefined`. -/
theorem getKeyP_eq_none_of_not_mem {α : Type} {l : List (String × α)} {k : String}
    (h : k ∉ l.map Prod.fst) : getKeyP l k = none := by
  induction l with
  | nil => rfl
  | cons p rest ih =>
      simp only [List.map_cons, List.mem_cons] at h
      push_neg at h
      simp [getKeyP, beq_iff_eq, Ne.symm h.1, ih h.2]

/-- A key that reads back some value is one of the object's keys. -/
theorem mem_of_getKeyP_isSome {α : Type} {l : List (String × α)} {k : String}
    (h : (getKeyP l k).isSome) : k ∈ l.map Prod.fst := by
  induction l with
  | nil => simp [getKeyP] at h
  | cons p rest ih =>
      by_cases hpk : p.1 = k
      · simp [hpk]
      · simp only [getKeyP, beq_iff_eq, hpk, if_false] at h
        simp [ih h]

/-- On an object with unique keys, dropping the `undefined`-valued keys and
then reading is the same as reading with `undefined` for absence. -/
theorem getKeyP_ignoreUndefined {l : List (String × Option Json)} {k : String}
    (h : (l.map Prod.fst).Nodup) : getKeyP (ignoreUndefined l) k = getKeyOpt l k := by
  induction l with
  | nil => rfl
  | cons p rest ih =>
      obtain ⟨k', v⟩ := p
      simp only [List.map_cons, List.nodup_cons] at h
      by_cases hk : k' = k
      · subst hk
        cases v with
        | none =>
            simp only [ignoreUndefined, getKeyOpt, getKeyP, beq_iff_eq, if_pos rfl]
            have hrest : getKeyP (ignoreUndefined rest) k' = getKeyOpt rest k' := ih h.2
            rw [hrest]
            simp [getKeyOpt, getKeyP_eq_none_of_not_mem h.1]
        | some w =>
            simp [ignoreUndefined, getKeyOpt, getKeyP, beq_iff_eq]
      · cases v with
        | none => simp [ignoreUndefined, getKeyOpt, getKeyP, beq_iff_eq, hk, ih h.2]
        | some w =>
            simp only [ignoreUndefined, getKeyOpt, getKeyP, beq_iff_eq, hk, if_false]
            exact ih h.2

/-! ### Lemmas about route sorting -/

/-- The sorted route list is ascending in `orderKey`. -/
theorem sortRoutes_pairwise (rs : List Route) :
    (sortRoutes rs).Pairwise (fun a b => orderKey a.order ≤ orderKey b.order) := by
  haveI : IsTotal Route (fun a b => orderKey a.order ≤ orderKey b.order) :=
    ⟨fun a b => le_total _ _⟩
  haveI : IsTrans Route (fun a b => orderKey a.order ≤ orderKey b.order) :=
    ⟨fun _ _ _ hab hbc => le_trans hab hbc⟩
  exact List.sorted_insertionSort _ rs

/-- Stability: the routes of any one sort key keep their original relative
order. -/
theorem sortRoutes_filter_key (rs : List Route) (n : Int) :
    (sortRoutes rs).filter (fun r => orderKey r.order == n)
      = rs.filter (fun r => orderKey r.order == n) := by
  set p : Route → Bool := fun r => orderKey r.order == n with hp
  set r : Route → Route → Prop := fun a b => orderKey a.order ≤ orderKey b.order with hr
  have hpair : (rs.filter p).Pairwise r := by
    refine List.pairwise_of_forall_mem_list ?_
    intro a ha b hb
    have ha2 := (List.mem_filter.mp ha).2
    have hb2 := (List.mem_filter.mp hb).2
    simp only [hp, beq_iff_eq] at ha2 hb2
    simp [hr, ha2, hb2]
  have hsub : (rs.filter p).Sublist (List.insertionSort r rs) :=
    List.sublist_insertionSort hpair (List.filter_sublist rs)
  have hsub2 : (rs.filter p).Sublist ((List.insertionSort r rs).filter p) := by
    have hself : (rs.filter p).filter p = rs.filter p :=
      List.filter_eq_self.mpr (fun a ha => (List.mem_filter.mp ha).2)
    rw [← hself]
    exact List.Sublist.filter p hsub
  have hperm : ((List.insertionSort r rs).filter p).Perm (rs.filter p) :=
    List.Perm.filter p (List.perm_insertionSort r rs)
  exact ((List.Sublist.eq_of_length hsub2 hperm.length_eq.symm).symm : _)

/-! ### Lemmas about the label registry -/

/-- The count map built by `getDuplicateFixedSchemas` stores the
multiplicity of every label. -/
theorem getKeyP_countLabels_foldl (rs : List String) (acc : List (String × Nat)) (l : String) :
    (getKeyP (rs.foldl (fun acc s => setKeyP acc s ((getKeyP acc s).getD 0 + 1)) acc) l).getD 0
      = (getKeyP acc l).getD 0 + rs.count l := by
  induction rs generalizing acc with
  | nil => simp [List.count_nil]
  | cons s rest ih =>
      simp only [List.foldl_cons, List.count_cons, ih]
      rw [getKeyP_setKeyP]
      by_cases h : l = s
      · simp [h, beq_iff_eq]; omega
      · simp [h, beq_iff_eq, Ne.symm h]

/-- A registered label has an entry in the count map. -/
theorem isSome_countLabels_foldl (rs : List String) (acc : List (String × Nat)) (l : String)
    (h : l ∈ rs ∨ (getKeyP acc l).isSome) :
    (getKeyP (rs.foldl (fun acc s => setKeyP acc s ((getKeyP acc s).getD 0 + 1)) acc) l).isSome := by
  induction rs generalizing acc with
  | nil => simpa using h.resolve_left (by simp)
  | cons s rest ih =>
      simp only [List.foldl_cons]
      refine ih _ ?_
      rcases h with h | h
      · rcases List.mem_cons.mp h with h | h
        · right
          rw [getKeyP_setKeyP]
          simp [h]
        · exact Or.inl h
      · right
        rw [getKeyP_setKeyP]
        by_cases hls : l = s <;> simp [hls, h]

/-- A label registered at least twice makes the duplicate list nonempty. -/
theorem getDuplicateFixedSchemas_ne_nil (registered : List String) (l : String)
    (h : 2 ≤ registered.count l) : getDuplicateFixedSchemas registered ≠ [] := by
  have hmem : l ∈ registered := by
    by_contra hc
    rw [List.count_eq_zero_of_not_mem hc] at h
    omega
  have hsome : (getKeyP (countLabels registered) l).isSome :=
    isSome_countLabels_foldl registered [] l (Or.inl hmem)
  have hval : (getKeyP (countLabels registered) l).getD 0 = registered.count l := by
    have hfold := getKeyP_countLabels_foldl registered [] l
    simpa [countLabels, getKeyP] using hfold
  have hkey : l ∈ (countLabels registered).map Prod.fst := mem_of_getKeyP_isSome hsome
  have hin : l ∈ getDuplicateFixedSchemas registered := by
    unfold getDuplicateFixedSchemas
    refine List.mem_filter.mpr ⟨hkey, ?_⟩
    simp only [hval, decide_eq_true_eq]
    omega
  exact fun hnil => by simp [hnil] at hin

/-! ### Fragment characterizations per `ExtensibleSchema` subclass -/

/-- The `StringField` fragment. -/
theorem string_toJSonSchema (ef : String → String) (opts : Options) (b : Base)
    (mi ma : Option Int) (p : Option String) :
    (Schema.extensible b (.string mi ma p)).toJSonSchema ef opts
      = .ok (.obj (ignoreUndefined
          [("type", some (.str "string")), ("format", none),
           ("description", b.description.map .str), ("example", b.«example»),
           ("deprecated", b.deprecated.map .bool),
           ("minLength", mi.map .num), ("maxLength", ma.map .num),
           ("pattern", p.map .str)])) := rfl

/-- The `BooleanField` fragment. -/
theorem boolean_toJSonSchema (ef : String → String) (opts : Options) (b : Base) :
    (Schema.extensible b .boolean).toJSonSchema ef opts
      = .ok (.obj (ignoreUndefined
          [("type", some (.str "boolean")), ("format", none),
           ("description", b.description.map .str), ("example", b.«example»),
           ("deprecated", b.deprecated.map .bool)])) := rfl

/-- The `DateField` fragment. -/
theorem date_toJSonSchema (ef : String → String) (opts : Options) (b : Base)
    (fmt : Option String) :
    (Schema.extensible b (.date fmt)).toJSonSchema ef opts
      = .ok (.obj (ignoreUndefined
          [("type", some (.str "string")), ("format", fmt.map .str),
           ("description", b.description.map .str), ("example", b.«example»),
           ("deprecated", b.deprecated.map .bool)])) := rfl

/-- The `NumberField` fragment. -/
theorem number_toJSonSchema (ef : String → String) (opts : Options) (b : Base)
    (mi ma df : Option Int) :
    (Schema.extensible b (.number mi ma df)).toJSonSchema ef opts
      = .ok (.obj (ignoreUndefined
          [("type", some (.str "number")), ("format", none),
           ("description", b.description.map .str), ("example", b.«example»),
           ("deprecated", b.deprecated.map .bool),
           ("minimum", mi.map .num), ("maximum", ma.map .num),
           ("default", df.map .num)])) := rfl

/-- The `EnumField` fragment. -/
theorem enum_toJSonSchema (ef : String → String) (opts : Options) (b : Base)
    (vs : List String) :
    (Schema.extensible b (.enum vs)).toJSonSchema ef opts
      = .ok (.obj (ignoreUndefined
          [("type", some (.str "string")), ("format", none),
           ("description", b.description.map .str), ("example", b.«example»),
           ("deprecated", b.deprecated.map .bool),
           ("enum", some (.arr (vs.map .str)))])) := rfl

/-- The `ObjectField` fragment, given its serialized properties. -/
theorem object_toJSonSchema (ef : String → String) (opts : Options) (b : Base)
    (fields : List (String × Schema)) (ap : Option Bool)
    (props : List (String × Json))
    (h : toJSonSchemaFields ef opts fields = .ok props) :
    (Schema.extensible b (.object fields ap)).toJSonSchema ef opts
      = .ok (.obj (ignoreUndefined
          [("type", some (.str "object")), ("format", none),
           ("description", b.description.map .str), ("example", b.«example»),
           ("deprecated", b.deprecated.map .bool),
           ("properties", if fields.length == 0 then none else some (.obj props)),
           ("additionaProperties", ap.map .bool),
           ("required",
             if ((fields.filter (fun f => f.2.base.required == some true)).map (·.1)).length != 0
             then some (.arr (((fields.filter (fun f => f.2.base.required == some true)).map (·.1)).map .str))
             else none)])) := by
  unfold Schema.toJSonSchema ownFields
  rw [h]
  rfl

/-- The `ArrayField` fragment with an item schema, given its serialization. -/
theorem array_toJSonSchema (ef : String → String) (opts : Options) (b : Base)
    (s : Schema) (j : Json)
    (h : s.toJSonSchema ef opts = .ok j) :
    (Schema.extensible b (.array (some s))).toJSonSchema ef opts
      = .ok (.obj (ignoreUndefined
          [("type", some (.str "array")), ("format", none),
           ("description", b.description.map .str), ("example", b.«example»),
           ("deprecated", b.deprecated.map .bool),
           ("items", some j)])) := by
  unfold Schema.toJSonSchema ownFields
  rw [h]
  rfl

/-- The `ArrayField` fragment with no item schema. -/
theorem array_none_toJSonSchema (ef : String → String) (opts : Options) (b : Base) :
    (Schema.extensible b (.array none)).toJSonSchema ef opts
      = .ok (.obj (ignoreUndefined
          [("type", some (.str "array")), ("format", none),
           ("description", b.description.map .str), ("example", b.«example»),
           ("deprecated", b.deprecated.map .bool),
           ("items", none)])) := rfl

/-- `asParameterList` maps every field to a descriptor whose `required` is
forced for `path` parameters and is the field's own flag otherwise. -/
theorem asParameterList_go_required (parameterType : String) (ef : String → String)
    (opts : Options) (fields : List (String × Schema)) (ps : List Param)
    (h : ObjectField.asParameterList.go parameterType ef opts fields = .ok ps) :
    ps.map (fun p => p.required)
      = fields.map (fun f => if parameterType == "path" then some true else f.2.base.required) := by
  induction fields generalizing ps with
  | nil =>
      simp only [ObjectField.asParameterList.go] at h
      cases h
      rfl
  | cons f rest ih =>
      obtain ⟨key, field⟩ := f
      simp only [ObjectField.asParameterList.go] at h
      cases hfrag : (match field with
          | .fixed _ _ inner => inner
          | f => f).toJSonSchema ef opts with
      | error e => rw [hfrag] at h; simp [Bind.bind, Except.bind] at h
      | ok frag =>
          rw [hfrag] at h
          cases hrest : ObjectField.asParameterList.go parameterType ef opts rest with
          | error e => rw [hrest] at h; simp [Bind.bind, Except.bind] at h
          | ok rs =>
              rw [hrest] at h
              simp only [Bind.bind, Except.bind, Except.ok.injEq] at h
              subst h
              simp [ih rs hrest]

/-! ### Claims -/

/-- C1, counterexample: for `b = string().required()`, the claim asserts
`serialize(b).required == true`, but `b`'s fragment is exactly
`{type: "string"}` — it has no `required` key at all (the flag is a base
attribute that is never part of the node's own fragment). -/
theorem C1_counterexample :
    ((oas.string.required).toJSonSchema extNone .flat).map
        (fun j => getKeyP j.objFieldsOf "required") = Except.ok none
  ∧ (oas.string.required).toJSonSchema extNone .flat
      = .ok (.obj [("type", .str "string")]) := ⟨rfl, rfl⟩

/-- C1, amended: every builder modifier returns a new Schema Node value
(`required()` changes only the `_required` attribute and keeps the rest of
the node), the original's fragment is unchanged, and for `a = string()`,
`b = a.required()`: `serialize(a)` has no `required` key, `serialize(b)`
equals `serialize(a)`, and `b._required == true` internally. -/
theorem C1_amended_immutability :
    (∀ s : Schema, (s.required).base = { s.base with required := some true })
  ∧ (∀ s : Schema, (s.required).withBase s.base = s)
  ∧ oas.string.toJSonSchema extNone .flat = .ok (.obj [("type", .str "string")])
  ∧ (oas.string.required).toJSonSchema extNone .flat = oas.string.toJSonSchema extNone .flat
  ∧ (oas.string.required).base.required = some true := by
  refine ⟨fun s => ?_, fun s => ?_, rfl, rfl, rfl⟩
  · cases s <;> rfl
  · cases s <;> rfl

/-- C2: serializing `object({id: string().required(), age: number().min(0)})`
in flat mode yields exactly
`{type: "object", properties: {id: {type: "string"}, age: {type: "number",
minimum: 0}}, required: ["id"]}`, with no `additionalProperties` (nor
`additionaProperties`) key. -/
theorem C2_object_roundtrip :
    (oas.object [("id", oas.string.required), ("age", NumberField.min oas.number 0)]).toJSonSchema extNone .flat
      = .ok (.obj [("type", .str "object"),
                   ("properties", .obj [("id", .obj [("type", .str "string")]),
                                        ("age", .obj [("type", .str "number"), ("minimum", .num 0)])]),
                   ("required", .arr [.str "id"])])
  ∧ ((oas.object [("id", oas.string.required), ("age", NumberField.min oas.number 0)]).toJSonSchema extNone .flat).map
      (fun j => getKeyP j.objFieldsOf "additionalProperties") = .ok none
  ∧ ((oas.object [("id", oas.string.required), ("age", NumberField.min oas.number 0)]).toJSonSchema extNone .flat).map
      (fun j => getKeyP j.objFieldsOf "additionaProperties") = .ok none :=
  ⟨rfl, rfl, rfl⟩

/-- C3: routes are sorted ascending by `order` (undefined order is the
sentinel 10000 and sorts last), the sort is stable (each sort-key class
keeps its original relative order), and orders `[undefined, 1, 0]` produce
path-item insertion order `[order=0, order=1, order=undefined]`. -/
theorem C3_route_sorting :
    (∀ rs : List Route,
        (sortRoutes rs).Pairwise (fun a b => orderKey a.order ≤ orderKey b.order))
  ∧ (∀ (rs : List Route) (n : Int),
        (sortRoutes rs).filter (fun r => orderKey r.order == n)
          = rs.filter (fun r => orderKey r.order == n))
  ∧ orderKey none = 10000
  ∧ sortRoutes [routeOrderNone, routeOrder1, routeOrder0]
      = [routeOrder0, routeOrder1, routeOrderNone]
  ∧ buildPaths extNone .flat (sortRoutes [routeOrderNone, routeOrder1, routeOrder0])
      = .ok [("/a", [("get", .obj [("$ref", .str "f.json#/p")])]),
             ("/b", [("get", .obj [("$ref", .str "f.json#/p")])]),
             ("/c", [("get", .obj [("$ref", .str "f.json#/p")])])] :=
  ⟨sortRoutes_pairwise, sortRoutes_filter_key, rfl, rfl, rfl⟩

/-- C4: a label registered twice makes the `referenced` build fail up front
with a thrown error, while a `flat` build never runs the uniqueness check
(its result does not depend on the registry at all); concretely, a registry
`["User", "User"]` fails a referenced build and leaves a flat build
succeeding. -/
theorem C4_duplicate_label_check (registered : List String) (ef : String → String)
    (params : MakeSchemaParams) (l : String) (h : 2 ≤ registered.count l) :
    (∃ msg, makeSchema registered ef params .referenced = .error msg)
  ∧ (∀ registered2 : List String,
        makeSchema registered2 ef params .flat = makeSchema registered ef params .flat)
  ∧ (makeSchema ["User", "User"] extNone minimalParams .flat).isOk = true
  ∧ makeSchema ["User", "User"] extNone minimalParams .referenced
      = .error "Found duplicate fixed schemas: User" := by
  refine ⟨?_, fun _ => rfl, rfl, rfl⟩
  have hdup := getDuplicateFixedSchemas_ne_nil registered l h
  have hlen : ((getDuplicateFixedSchemas registered).length != 0) = true := by
    simpa [bne_iff_ne, List.length_eq_zero] using hdup
  refine ⟨"Found duplicate fixed schemas: "
    ++ String.intercalate "," (getDuplicateFixedSchemas registered), ?_⟩
  unfold makeSchema
  simp [hlen, Bind.bind, Except.bind, throw, throwThe, MonadExceptOf.throw]

/-- C4, witness: the registry `["User", "User"]` has a duplicate, and the
theorem's conclusions hold for it. -/
theorem C4_duplicate_label_check_witness :
    2 ≤ (["User", "User"]).count "User"
  ∧ ((∃ msg, makeSchema ["User", "User"] extNone minimalParams .referenced = .error msg)
     ∧ (∀ registered2 : List String,
          makeSchema registered2 extNone minimalParams .flat
            = makeSchema ["User", "User"] extNone minimalParams .flat)
     ∧ (makeSchema ["User", "User"] extNone minimalParams .flat).isOk = true
     ∧ makeSchema ["User", "User"] extNone minimalParams .referenced
         = .error "Found duplicate fixed schemas: User") :=
  ⟨by decide, C4_duplicate_label_check ["User", "User"] extNone minimalParams "User" (by decide)⟩

/-- C5: an `ExternalReference` to file `F` and pointer `P` serializes to
`{$ref: "<resolved-path-for-F>#P"}` once the resolver has filled in `F`'s
target, and throws an error naming `F` when serialized before resolution. -/
theorem C5_external_reference (ef : String → String) (b : Base) (F P : String) (opts : Options) :
    (ef F ≠ "" →
      (Schema.reference b F P).toJSonSchema ef opts
        = .ok (.obj [("$ref", .str (ef F ++ "#" ++ P))]))
  ∧ (ef F = "" →
      (Schema.reference b F P).toJSonSchema ef opts
        = .error ("External file not found: " ++ F)) := by
  constructor
  · intro h
    unfold Schema.toJSonSchema
    simp [bne_iff_ne, h]
  · intro h
    unfold Schema.toJSonSchema
    simp [h]

/-- C5, witness: with `widgets.json` resolved to a scratch path the
reference serializes to that path plus the pointer; unresolved, it throws
naming `widgets.json`. -/
theorem C5_external_reference_witness :
    (extWidgets "widgets.json" ≠ ""
     ∧ (Schema.reference {} "widgets.json" "/definitions/Widget").toJSonSchema extWidgets .flat
         = .ok (.obj [("$ref", .str "/tmp/oas-dsl/spec-0-widgets.json#/definitions/Widget")]))
  ∧ (extNone "widgets.json" = ""
     ∧ (Schema.reference {} "widgets.json" "/definitions/Widget").toJSonSchema extNone .flat
         = .error "External file not found: widgets.json") := by
  refine ⟨⟨by decide, ?_⟩, ⟨rfl, ?_⟩⟩
  · exact (C5_external_reference extWidgets {} "widgets.json" "/definitions/Widget" .flat).1 (by decide)
  · exact (C5_external_reference extNone {} "widgets.json" "/definitions/Widget" .flat).2 rfl

/-- C6: `asParameterList` forces `required: true` for every `path`-location
descriptor regardless of the field's own flag, and copies the field's own
`_required` flag for the `query`, `header` and `cookie` locations. -/
theorem C6_parameter_required (b : Base) (fields : List (String × Schema)) (ap : Option Bool)
    (loc : String) (ef : String → String) (opts : Options) (ps : List Param)
    (h : ObjectField.asParameterList (.extensible b (.object fields ap)) loc ef opts = .ok ps) :
    (loc = "path" → ps.map (fun p => p.required) = fields.map (fun _ => some true))
  ∧ (loc ∈ ["query", "header", "cookie"] →
      ps.map (fun p => p.required) = fields.map (fun f => f.2.base.required)) := by
  have hgo : ObjectField.asParameterList.go loc ef opts fields = .ok ps := h
  have hmap := asParameterList_go_required loc ef opts fields ps hgo
  constructor
  · intro hloc
    subst hloc
    simpa using hmap
  · intro hmem
    have hne : (loc == "path") = false := by
      simp only [List.mem_cons, List.not_mem_nil, or_false] at hmem
      rcases hmem with h1 | h1 | h1 <;> subst h1 <;> decide
    rw [hmap]
    simp [hne]

/-- C6, witness: the field `{userId: string()}` (not itself required)
yields `required: true` in the `path` location and `required: undefined`
in the `query` location. -/
theorem C6_parameter_required_witness :
    (ObjectField.asParameterList (oas.object [("userId", oas.string)]) "path" extNone .flat
       = .ok [{ description := none, name := "userId", inLoc := "path", explode := none,
                required := some true, schema := .obj [("type", .str "string")] }])
  ∧ ([({ description := none, name := "userId", inLoc := "path", explode := none,
         required := some true, schema := Json.obj [("type", .str "string")] } : Param)].map
        (fun p => p.required)
       = [("userId", oas.string)].map (fun _ => some true))
  ∧ ([({ description := none, name := "userId", inLoc := "query", explode := none,
         required := none, schema := Json.obj [("type", .str "string")] } : Param)].map
        (fun p => p.required)
       = [("userId", oas.string)].map (fun f => f.2.base.required)) := by
  refine ⟨rfl, ?_, ?_⟩
  · exact (C6_parameter_required {} [("userId", oas.string)] none "path" extNone .flat _ rfl).1 rfl
  · exact (C6_parameter_required {} [("userId", oas.string)] none "query" extNone .flat _ rfl).2 (by simp)

/-- C7: the operation fragment's `parameters` array is the concatenation of
the header parameters first, then the path parameters, then the query
parameters (and is omitted when that concatenation is empty). -/
theorem C7_parameter_order (ef : String → String) (opts : Options) (route : DefinedRoute)
    (hs ps qs : List Param) (j : Json)
    (hH : asParameterListOpt (route.validate.bind (·.headers)) "header" ef opts = .ok hs)
    (hP : asParameterListOpt (route.validate.bind (·.path)) "path" ef opts = .ok ps)
    (hQ : asParameterListOpt (route.validate.bind (·.query)) "query" ef opts = .ok qs)
    (hR : routeToJsonSchema ef opts (.defined route) = .ok j) :
    getKeyP j.objFieldsOf "parameters"
      = if (hs ++ ps ++ qs).length != 0
        then some (.arr ((hs ++ ps ++ qs).map Param.toJson)) else none := by
  simp only [routeToJsonSchema] at hR
  rw [hH, hP, hQ] at hR
  simp only [Bind.bind, Except.bind] at hR
  cases hRB : requestBodyOf (route.validate.bind (·.body)) ef opts with
  | error e => rw [hRB] at hR; simp at hR
  | ok rb =>
      rw [hRB] at hR
      cases hResp : buildResponses ef opts route with
      | error e => rw [hResp] at hR; simp at hR
      | ok resp =>
          rw [hResp] at hR
          simp only [Except.ok.injEq] at hR
          subst hR
          rw [Json.objFieldsOf]
          refine Eq.trans (getKeyP_ignoreUndefined
            (by simp only [List.map_cons, List.map_nil]; decide)) ?_
          rfl

/-- C7, witness: `GET /widgets/{id}` with one path parameter produces a
`parameters` array holding exactly that descriptor. -/
theorem C7_parameter_order_witness :
    (asParameterListOpt (widgetsRoute.validate.bind (·.headers)) "header" extNone .flat = .ok [])
  ∧ (asParameterListOpt (widgetsRoute.validate.bind (·.path)) "path" extNone .flat
       = .ok widgetsPathParams)
  ∧ (asParameterListOpt (widgetsRoute.validate.bind (·.query)) "query" extNone .flat = .ok [])
  ∧ (routeToJsonSchema extNone .flat (.defined widgetsRoute) = .ok widgetsFragment)
  ∧ getKeyP widgetsFragment.objFieldsOf "parameters"
      = if (([] : List Param) ++ widgetsPathParams ++ []).length != 0
        then some (.arr ((([] : List Param) ++ widgetsPathParams ++ []).map Param.toJson))
        else none :=
  ⟨rfl, rfl, rfl, rfl,
   C7_parameter_order extNone .flat widgetsRoute [] widgetsPathParams [] widgetsFragment
     rfl rfl rfl rfl⟩

/-- C8, counterexample: the claim says a fragment never contains a key
bound to `null`, but `string().example(null)` serializes to
`{type: "string", example: null}` — `ignoreUndefined` drops only
`undefined`-valued keys, not `null`-valued ones. -/
theorem C8_counterexample :
    (oas.string.«example» .null).toJSonSchema extNone .flat
      = .ok (.obj [("type", .str "string"), ("example", .null)])
  ∧ ((oas.string.«example» .null).toJSonSchema extNone .flat).map
      (fun j => getKeyP j.objFieldsOf "example") = .ok (some .null) := ⟨rfl, rfl⟩

/-- C8, amended: a fragment of any extensible node contains no key bound to
`undefined` — an absent `description`, `example` or `deprecated` attribute
is omitted entirely — while an `example` attribute explicitly set (to
`null` included) is emitted with exactly that value. -/
theorem C8_amended_no_undefined (b : Base) (e : ExtensibleSchema) (ef : String → String)
    (opts : Options) (j : Json)
    (h : (Schema.extensible b e).toJSonSchema ef opts = .ok j) :
    (b.description = none → getKeyP j.objFieldsOf "description" = none)
  ∧ (b.«example» = none → getKeyP j.objFieldsOf "example" = none)
  ∧ (b.deprecated = none → getKeyP j.objFieldsOf "deprecated" = none)
  ∧ (∀ v : Json, b.«example» = some v → getKeyP j.objFieldsOf "example" = some v) := by
  cases e with
  | string mi ma p =>
      rw [string_toJSonSchema] at h
      simp only [Except.ok.injEq] at h
      subst h
      refine ⟨fun hx => ?_, fun hx => ?_, fun hx => ?_, fun v hx => ?_⟩ <;>
        (rw [Json.objFieldsOf];
         refine Eq.trans (getKeyP_ignoreUndefined
           (by simp only [List.map_cons, List.map_nil]; decide)) ?_;
         simp_all [getKeyOpt, getKeyP])
  | boolean =>
      rw [boolean_toJSonSchema] at h
      simp only [Except.ok.injEq] at h
      subst h
      refine ⟨fun hx => ?_, fun hx => ?_, fun hx => ?_, fun v hx => ?_⟩ <;>
        (rw [Json.objFieldsOf];
         refine Eq.trans (getKeyP_ignoreUndefined
           (by simp only [List.map_cons, List.map_nil]; decide)) ?_;
         simp_all [getKeyOpt, getKeyP])
  | date fmt =>
      rw [date_toJSonSchema] at h
      simp only [Except.ok.injEq] at h
      subst h
      refine ⟨fun hx => ?_, fun hx => ?_, fun hx => ?_, fun v hx => ?_⟩ <;>
        (rw [Json.objFieldsOf];
         refine Eq.trans (getKeyP_ignoreUndefined
           (by simp only [List.map_cons, List.map_nil]; decide)) ?_;
         simp_all [getKeyOpt, getKeyP])
  | number mi ma df =>
      rw [number_toJSonSchema] at h
      simp only [Except.ok.injEq] at h
      subst h
      refine ⟨fun hx => ?_, fun hx => ?_, fun hx => ?_, fun v hx => ?_⟩ <;>
        (rw [Json.objFieldsOf];
         refine Eq.trans (getKeyP_ignoreUndefined
           (by simp only [List.map_cons, List.map_nil]; decide)) ?_;
         simp_all [getKeyOpt, getKeyP])
  | enum vs =>
      rw [enum_toJSonSchema] at h
      simp only [Except.ok.injEq] at h
      subst h
      refine ⟨fun hx => ?_, fun hx => ?_, fun hx => ?_, fun v hx => ?_⟩ <;>
        (rw [Json.objFieldsOf];
         refine Eq.trans (getKeyP_ignoreUndefined
           (by simp only [List.map_cons, List.map_nil]; decide)) ?_;
         simp_all [getKeyOpt, getKeyP])
  | object fields ap =>
      cases hp : toJSonSchemaFields ef opts fields with
      | error e2 =>
          unfold Schema.toJSonSchema ownFields at h
          rw [hp] at h
          simp [Bind.bind, Except.bind] at h
      | ok props =>
          rw [object_toJSonSchema ef opts b fields ap props hp] at h
          simp only [Except.ok.injEq] at h
          subst h
          refine ⟨fun hx => ?_, fun hx => ?_, fun hx => ?_, fun v hx => ?_⟩ <;>
            (rw [Json.objFieldsOf];
             refine Eq.trans (getKeyP_ignoreUndefined
               (by simp only [List.map_cons, List.map_nil]; decide)) ?_;
             simp_all [getKeyOpt, getKeyP])
  | array items =>
      cases items with
      | none =>
          rw [array_none_toJSonSchema] at h
          simp only [Except.ok.injEq] at h
          subst h
          refine ⟨fun hx => ?_, fun hx => ?_, fun hx => ?_, fun v hx => ?_⟩ <;>
            (rw [Json.objFieldsOf];
             refine Eq.trans (getKeyP_ignoreUndefined
               (by simp only [List.map_cons, List.map_nil]; decide)) ?_;
             simp_all [getKeyOpt, getKeyP])
      | some s =>
          cases hi : s.toJSonSchema ef opts with
          | error e2 =>
              unfold Schema.toJSonSchema ownFields at h
              rw [hi] at h
              simp [Bind.bind, Except.bind] at h
          | ok ij =>
              rw [array_toJSonSchema ef opts b s ij hi] at h
              simp only [Except.ok.injEq] at h
              subst h
              refine ⟨fun hx => ?_, fun hx => ?_, fun hx => ?_, fun v hx => ?_⟩ <;>
                (rw [Json.objFieldsOf];
                 refine Eq.trans (getKeyP_ignoreUndefined
                   (by simp only [List.map_cons, List.map_nil]; decide)) ?_;
                 simp_all [getKeyOpt, getKeyP])

/-- C8, witness: a plain `string()` fragment has no `example` key, and a
`string().example(null)` fragment has `example` bound to `null`. -/
theorem C8_amended_no_undefined_witness :
    (oas.string.toJSonSchema extNone .flat = .ok (.obj [("type", .str "string")])
     ∧ getKeyP (Json.obj [("type", Json.str "string")]).objFieldsOf "example" = none)
  ∧ ((oas.string.«example» .null).toJSonSchema extNone .flat
       = .ok (.obj [("type", .str "string"), ("example", .null)])
     ∧ getKeyP (Json.obj [("type", Json.str "string"), ("example", Json.null)]).objFieldsOf
         "example" = some .null) := by
  refine ⟨⟨rfl, ?_⟩, ⟨rfl, ?_⟩⟩
  · exact (C8_amended_no_undefined {} (.string none none none) extNone .flat _ rfl).2.1 rfl
  · exact (C8_amended_no_undefined { «example» := some .null } (.string none none none)
      extNone .flat _ rfl).2.2.2 .null rfl

/-- C9: labelling copies `_required`, `_deprecated` and `_explode` from the
wrapped node onto the `FixedSchema`, so a required field that is labelled
still appears in its parent object's `required` list. -/
theorem C9_label_preserves_flags :
    (∀ (s : Schema) (L : String),
        (s.label L).base.required = s.base.required
      ∧ (s.label L).base.deprecated = s.base.deprecated
      ∧ (s.label L).base.explode = s.base.explode)
  ∧ (∀ (b : Base) (fields : List (String × Schema)) (ap : Option Bool)
        (k L : String) (s : Schema) (ef : String → String) (opts : Options)
        (props : List (String × Json)),
        (k, s.label L) ∈ fields → s.base.required = some true →
        toJSonSchemaFields ef opts fields = .ok props →
        ∃ j, (Schema.extensible b (.object fields ap)).toJSonSchema ef opts = .ok j
          ∧ ∃ names : List Json,
              getKeyP j.objFieldsOf "required" = some (.arr names) ∧ Json.str k ∈ names) := by
  constructor
  · intro s L
    exact ⟨rfl, rfl, rfl⟩
  · intro b fields ap k L s ef opts props hmem hreq hprops
    refine ⟨_, object_toJSonSchema ef opts b fields ap props hprops, ?_⟩
    have hkmem : k ∈ (fields.filter (fun f => f.2.base.required == some true)).map (·.1) := by
      refine List.mem_map.mpr ⟨(k, s.label L), ?_, rfl⟩
      refine List.mem_filter.mpr ⟨hmem, ?_⟩
      have hlab : (s.label L).base.required = s.base.required := rfl
      simp only [hlab, hreq, beq_self_eq_true]
    have hne : (((fields.filter (fun f => f.2.base.required == some true)).map (·.1)).length != 0)
        = true := by
      have hnil : ((fields.filter (fun f => f.2.base.required == some true)).map (·.1)) ≠ [] :=
        List.ne_nil_of_mem hkmem
      simpa [bne_iff_ne, List.length_eq_zero] using hnil
    rw [Json.objFieldsOf]
    have hif : (if (((fields.filter (fun f => f.2.base.required == some true)).map (·.1)).length != 0) = true
          then some (Json.arr (((fields.filter (fun f => f.2.base.required == some true)).map (·.1)).map .str))
          else none)
        = some (Json.arr (((fields.filter (fun f => f.2.base.required == some true)).map (·.1)).map .str)) :=
      if_pos hne
    refine ⟨((fields.filter (fun f => f.2.base.required == some true)).map (·.1)).map .str, ?_, ?_⟩
    · exact Eq.trans (getKeyP_ignoreUndefined
        (by simp only [List.map_cons, List.map_nil]; decide)) hif
    · exact List.mem_map.mpr ⟨k, hkmem, rfl⟩

/-- C9, witness: the required string field `id`, labelled `"Id"`, still
lands in the parent object's `required` list (referenced mode). -/
theorem C9_label_preserves_flags_witness :
    (("id", (oas.string.required).label "Id") ∈ [("id", (oas.string.required).label "Id")]
     ∧ (oas.string.required).base.required = some true
     ∧ toJSonSchemaFields extNone .referenced [("id", (oas.string.required).label "Id")]
         = .ok [("id", .obj [("$ref", .str "#/components/schemas/Id")])])
  ∧ (∃ j, (Schema.extensible {} (.object [("id", (oas.string.required).label "Id")] none)).toJSonSchema
        extNone .referenced = .ok j
      ∧ ∃ names : List Json,
          getKeyP j.objFieldsOf "required" = some (.arr names) ∧ Json.str "id" ∈ names) := by
  refine ⟨⟨List.mem_singleton.mpr rfl, rfl, rfl⟩, ?_⟩
  exact (C9_label_preserves_flags).2 {} [("id", (oas.string.required).label "Id")] none
    "id" "Id" (oas.string.required) extNone .referenced
    [("id", .obj [("$ref", .str "#/components/schemas/Id")])]
    (List.mem_singleton.mpr rfl) rfl rfl

/-- C10: an object fragment never contains an `additionalProperties` key;
the `additionalProperties(d)` modifier stores the flag, which is emitted
under the misspelled key `additionaProperties`, and with the modifier never
applied neither spelling appears. -/
theorem C10_misspelled_additional_properties (b : Base) (fields : List (String × Schema))
    (ap : Option Bool) (ef : String → String) (opts : Options) (j : Json)
    (h : (Schema.extensible b (.object fields ap)).toJSonSchema ef opts = .ok j) :
    getKeyP j.objFieldsOf "additionalProperties" = none
  ∧ getKeyP j.objFieldsOf "additionaProperties" = ap.map .bool
  ∧ ∀ d : Bool, ObjectField.additionalProperties (Schema.extensible b (.object fields ap)) d
      = Schema.extensible b (.object fields (some d)) := by
  cases hp : toJSonSchemaFields ef opts fields with
  | error e2 =>
      unfold Schema.toJSonSchema ownFields at h
      rw [hp] at h
      simp [Bind.bind, Except.bind] at h
  | ok props =>
      rw [object_toJSonSchema ef opts b fields ap props hp] at h
      simp only [Except.ok.injEq] at h
      subst h
      refine ⟨?_, ?_, fun d => rfl⟩ <;>
        (rw [Json.objFieldsOf];
         refine Eq.trans (getKeyP_ignoreUndefined
           (by simp only [List.map_cons, List.map_nil]; decide)) ?_;
         simp [getKeyOpt, getKeyP])

/-- C10, witness: `object({id: string()}).additionalProperties(false)`
emits `additionaProperties: false` and no `additionalProperties` key. -/
theorem C10_misspelled_additional_properties_witness :
    ((Schema.extensible {} (.object [("id", oas.string)] (some false))).toJSonSchema extNone .flat
       = .ok (.obj [("type", .str "object"),
                    ("properties", .obj [("id", .obj [("type", .str "string")])]),
                    ("additionaProperties", .bool false)]))
  ∧ (getKeyP (Json.obj [("type", Json.str "object"),
                        ("properties", Json.obj [("id", Json.obj [("type", Json.str "string")])]),
                        ("additionaProperties", Json.bool false)]).objFieldsOf
        "additionalProperties" = none
     ∧ getKeyP (Json.obj [("type", Json.str "object"),
                        ("properties", Json.obj [("id", Json.obj [("type", Json.str "string")])]),
                        ("additionaProperties", Json.bool false)]).objFieldsOf
        "additionaProperties" = some (.bool false)
     ∧ ∀ d : Bool, ObjectField.additionalProperties
          (Schema.extensible {} (.object [("id", oas.string)] (some false))) d
          = Schema.extensible {} (.object [("id", oas.string)] (some d))) := by
  refine ⟨rfl, ?_⟩
  exact C10_misspelled_additional_properties {} [("id", oas.string)] (some false) extNone .flat _ rfl
